import Mathlib

/-!
Verification of the Ride Dispatch & Lifecycle Engine of the aeras backend
(`RidesService` in `src/rides/rides.service.ts`, entities in
`src/rides/ride.entity.ts`, `src/entities/puller.entity.ts`,
`src/entities/points-history.entity.ts`).

The service is embedded as a pure state machine over an explicit database
value `DB`.  TypeORM repository calls become list operations: `findOne` by
primary key is `List.find?`, `save` replaces the row with the same id.
The `completeRide` / `adjustRidePoints` transactions are modelled by
building the post-state functionally and returning `Except`: an error
return discards every buffered write (exactly the commit/rollback
semantics of the `queryRunner` transaction); a `failingSaves` argument
says which of the numbered `save` calls inside the transaction throws,
so that atomicity can be stated for every failure pattern.

Coordinates are rationals.  The service's `calculateHaversineDistance`
is floating-point trigonometry (`Math.sin`/`cos`/`atan2`); the state
model abstracts it as a distance parameter `dist`, and the formula
itself is embedded separately over the reals as
`calculateHaversineDistance` below, faithful to the source expression.

JavaScript truthiness that the source relies on is kept: the candidate
filter `puller.lastKnownLat && puller.lastKnownLon` treats a null *or
zero* coordinate as absent (`truthyCoord`), and `ride.pointsAwarded || 0`
maps null to 0 (`Option.getD`).
-/

/-- RideStatus enum from `ride.entity.ts`. -/
inductive RideStatus where
  | PENDING_USER_CONFIRMATION
  | SEARCHING
  | ACCEPTED
  | ACTIVE
  | COMPLETED
  | CANCELLED
  | EXPIRED
deriving DecidableEq, Repr

/-- PointReason enum from `points-history.entity.ts`. -/
inductive PointReason where
  | RIDE_COMPLETION
  | MANUAL_ADJUSTMENT
  | REDEMPTION
  | FRAUD_REVERSAL
deriving DecidableEq, Repr

/-- LocationBlock entity (immutable reference data). -/
structure LocationBlock where
  blockId : String
  destinationName : String
  latitude : ℚ
  longitude : ℚ
deriving DecidableEq, Repr

/-- Puller entity.  `lastKnownLat`/`lastKnownLon` are nullable floats. -/
structure Puller where
  id : ℕ
  name : String
  pointsBalance : ℤ
  isOnline : Bool
  isActive : Bool
  lastKnownLat : Option ℚ
  lastKnownLon : Option ℚ
deriving DecidableEq, Repr

/-- Ride entity.  The eager `puller` relation is stored through its
foreign key `pullerId` and resolved against the puller table on load. -/
structure Ride where
  id : ℕ
  status : RideStatus
  requestTime : ℕ
  acceptTime : Option ℕ
  pickupTime : Option ℕ
  completionTime : Option ℕ
  pointsAwarded : Option ℤ
  rejectedByPullers : Option (List ℕ)
  startBlock : LocationBlock
  destinationBlock : LocationBlock
  pullerId : Option ℕ
deriving DecidableEq, Repr

/-- PointsHistory entity: one append-only ledger row. -/
structure PointsHistoryRow where
  pullerId : ℕ
  rideId : Option ℕ
  pointsChange : ℤ
  reason : PointReason
deriving DecidableEq, Repr

/-- The persistent store the service operates on. -/
structure DB where
  rides : List Ride
  pullers : List Puller
  history : List PointsHistoryRow
deriving DecidableEq, Repr

/-- NotFoundException / BadRequestException, plus a thrown storage
failure inside a transaction (any other error the driver may raise). -/
inductive Err where
  | notFound (msg : String)
  | badRequest (msg : String)
  | saveFailure
deriving DecidableEq, Repr

/-- Outbound notifications (MQTT publishes and WebSocket events),
recorded in emission order. -/
inductive Msg where
  | rideRequest (pullerId rideId : ℕ)
  | wsRideRequest (pullerId rideId : ℕ)
  | rideRejectionConfirmation (pullerId rideId : ℕ)
  | rideFilled (rideId pullerId : ℕ)
  | wsRideFilled (rideId : ℕ)
  | rideExpired (rideId pullerId : ℕ)
  | rideStatus (rideId : ℕ) (status : RideStatus)
  | broadcastRideStatusUpdate (rideId : ℕ)
  | rideCompletion (rideId pullerId : ℕ) (points : ℤ)
deriving DecidableEq, Repr

/-- ridesRepository.findOne by primary key. -/
def findRide (db : DB) (rideId : ℕ) : Option Ride :=
  db.rides.find? (fun r => r.id = rideId)

/-- pullersRepository.findOne by primary key. -/
def findPuller (db : DB) (pullerId : ℕ) : Option Puller :=
  db.pullers.find? (fun p => p.id = pullerId)

/-- ridesRepository.save: replace the row with the same id. -/
def saveRide (db : DB) (r : Ride) : DB :=
  { db with rides := db.rides.map (fun x => if x.id = r.id then r else x) }

/-- pullersRepository.save: replace the row with the same id. -/
def savePuller (db : DB) (p : Puller) : DB :=
  { db with pullers := db.pullers.map (fun x => if x.id = p.id then p else x) }

/-- manager.save(PointsHistory, ...): append a ledger row. -/
def addHistory (db : DB) (h : PointsHistoryRow) : DB :=
  { db with history := db.history ++ [h] }

/-- Resolve the eager `ride.puller` relation against the puller table. -/
def loadPuller (db : DB) (r : Ride) : Option Puller :=
  r.pullerId.bind (findPuller db)

/-- JavaScript truthiness of a nullable float coordinate: null and 0 are
falsy, everything else truthy (the source filters with
`puller.lastKnownLat && puller.lastKnownLon`). -/
def truthyCoord : Option ℚ → Bool
  | none => false
  | some x => x ≠ 0

/-- The rejectedByPullers array, with a null column read as empty. -/
def rejectedOf (r : Ride) : List ℕ :=
  r.rejectedByPullers.getD []

/-- Point allocation formula of `completeRide`:
`Math.max(0, Math.floor(basePoints - distanceFromDestination / 10))`
with `basePoints = 10`. -/
def completionPoints (d : ℚ) : ℤ :=
  max 0 ⌊(10 : ℚ) - d / 10⌋

/-- atan2 as in JavaScript's `Math.atan2(y, x)`: the argument of the
complex number x + y·i. -/
noncomputable def atan2 (y x : ℝ) : ℝ := Complex.arg { re := x, im := y }

/-- calculateHaversineDistance from `rides.service.ts`, read over the
reals (the source computes it in floating point): Earth radius
R = 6371e3 m, latitudes and deltas converted to radians, and
`2·atan2(√a, √(1−a))` scaled by R. -/
noncomputable def calculateHaversineDistance (lat1 lon1 lat2 lon2 : ℝ) : ℝ :=
  let R : ℝ := 6371000
  let φ1 := lat1 * Real.pi / 180
  let φ2 := lat2 * Real.pi / 180
  let Δφ := (lat2 - lat1) * Real.pi / 180
  let Δlam := (lon2 - lon1) * Real.pi / 180
  let a := Real.sin (Δφ / 2) * Real.sin (Δφ / 2) +
    Real.cos φ1 * Real.cos φ2 * (Real.sin (Δlam / 2) * Real.sin (Δlam / 2))
  let c := 2 * atan2 (Real.sqrt a) (Real.sqrt (1 - a))
  R * c

/-- acceptRide(rideId, pullerId) from `rides.service.ts`:
find the ride, guard `status === SEARCHING`, find the puller, then set
puller / ACCEPTED / acceptTime and save, emitting the filled and status
notifications.  The read and the write are separate repository calls
with no conditional update (see the race model below). -/
def acceptRide (db : DB) (rideId pullerId now : ℕ) :
    Except Err (DB × List Msg) :=
  match findRide db rideId with
  | none => .error (.notFound ("Ride " ++ toString rideId ++ " not found"))
  | some ride =>
    if ride.status ≠ RideStatus.SEARCHING then
      .error (.badRequest
        ("Ride " ++ toString rideId ++ " is not in SEARCHING status"))
    else
      match findPuller db pullerId with
      | none =>
        .error (.notFound ("Puller " ++ toString pullerId ++ " not found"))
      | some puller =>
        let ride' := { ride with
          pullerId := some puller.id
          status := RideStatus.ACCEPTED
          acceptTime := some now }
        .ok (saveRide db ride',
          [Msg.rideFilled ride.id puller.id,
           Msg.wsRideFilled ride.id,
           Msg.broadcastRideStatusUpdate ride.id,
           Msg.rideStatus ride.id RideStatus.ACCEPTED])

/-- rejectRide(rideId, pullerId) from `rides.service.ts`:
find the ride, guard `status === SEARCHING`, find the puller; if the
id of the puller is not yet in rejectedByPullers push it and save, broadcast
the update and confirm the rejection to the puller; otherwise return
success without touching the store.  The comment "Find next available
puller and send them the request" in the source is followed by no call:
`redistributeRideToNextPuller` is never invoked. -/
def rejectRide (db : DB) (rideId pullerId : ℕ) :
    Except Err (DB × List Msg × String) :=
  match findRide db rideId with
  | none => .error (.notFound ("Ride " ++ toString rideId ++ " not found"))
  | some ride =>
    if ride.status ≠ RideStatus.SEARCHING then
      .error (.badRequest
        ("Ride " ++ toString rideId ++ " is not in SEARCHING status"))
    else
      match findPuller db pullerId with
      | none =>
        .error (.notFound ("Puller " ++ toString pullerId ++ " not found"))
      | some puller =>
        let rejected := rejectedOf ride
        if puller.id ∈ rejected then
          .ok (db, [], "Ride already rejected by this puller")
        else
          let ride' := { ride with
            rejectedByPullers := some (rejected ++ [puller.id]) }
          .ok (saveRide db ride',
            [Msg.broadcastRideStatusUpdate ride.id,
             Msg.rideRejectionConfirmation puller.id ride.id],
            "Ride rejection recorded successfully")

/-- redistributeRideToNextPuller(ride) from `rides.service.ts` (defined
but never called): take the online+active pullers, drop those without a
truthy location or already in rejectedByPullers, sort the rest by
distance to the start block and publish one ride request to the closest.
`dist` stands for `calculateHaversineDistance`; the stable ascending
`.sort((a, b) => a.distance - b.distance)` is modelled by the stable
`List.insertionSort` on the distance component. -/
def redistributeRideToNextPuller (dist : ℚ → ℚ → ℚ → ℚ → ℚ)
    (db : DB) (ride : Ride) : List Msg :=
  let onlinePullers := db.pullers.filter (fun p => p.isOnline && p.isActive)
  if onlinePullers.isEmpty then []
  else
    let rejectedIds := rejectedOf ride
    let availablePullers := onlinePullers.filter (fun p =>
      truthyCoord p.lastKnownLat && truthyCoord p.lastKnownLon &&
        p.id ∉ rejectedIds)
    if availablePullers.isEmpty then []
    else
      let pullersWithDistance := (availablePullers.map (fun p =>
        (p, dist (p.lastKnownLat.getD 0) (p.lastKnownLon.getD 0)
          ride.startBlock.latitude ride.startBlock.longitude))).insertionSort
        (fun a b => a.2 ≤ b.2)
      match pullersWithDistance with
      | [] => []
      | next :: _ => [Msg.rideRequest next.1.id ride.id]

/-- pickupRide(rideId) from `rides.service.ts`: guard
`status === ACCEPTED`, then set ACTIVE and pickupTime. -/
def pickupRide (db : DB) (rideId now : ℕ) : Except Err (DB × List Msg) :=
  match findRide db rideId with
  | none => .error (.notFound ("Ride " ++ toString rideId ++ " not found"))
  | some ride =>
    if ride.status ≠ RideStatus.ACCEPTED then
      .error (.badRequest
        ("Ride " ++ toString rideId ++ " is not in ACCEPTED status"))
    else
      let ride' := { ride with
        status := RideStatus.ACTIVE
        pickupTime := some now }
      .ok (saveRide db ride',
        [Msg.broadcastRideStatusUpdate ride.id,
         Msg.rideStatus ride.id RideStatus.ACTIVE])

/-- autoExpireRide(rideId) from `rides.service.ts` (the 60 s timer
callback).  A missing ride or a status other than SEARCHING returns
before any write; otherwise the status becomes EXPIRED and the
expiration is broadcast to the dashboard, each online+active puller and
the MQTT status topic.  The surrounding try/catch swallows errors, so
the callback never throws. -/
def autoExpireRide (db : DB) (rideId : ℕ) : DB × List Msg :=
  match findRide db rideId with
  | none => (db, [])
  | some ride =>
    if ride.status ≠ RideStatus.SEARCHING then (db, [])
    else
      let ride' := { ride with status := RideStatus.EXPIRED }
      let onlinePullers := db.pullers.filter (fun p => p.isOnline && p.isActive)
      (saveRide db ride',
        Msg.broadcastRideStatusUpdate ride.id ::
          onlinePullers.map (fun p => Msg.rideExpired rideId p.id) ++
          [Msg.rideStatus rideId RideStatus.EXPIRED])

/-- completeRide(rideId, finalLat, finalLon) from `rides.service.ts`.
Runs inside a queryRunner transaction: the guards (`NotFound`, not
ACTIVE, no puller) throw before any write; the three saves (0 = ride,
1 = puller, 2 = history) are buffered and only become visible on
commit, and any throw rolls every one of them back — here an `.error`
return carries no state, so the caller keeps the original `db`.
`failingSaves` lists which save calls throw; `dist` stands for
`calculateHaversineDistance`. -/
def completeRide (dist : ℚ → ℚ → ℚ → ℚ → ℚ) (db : DB)
    (rideId : ℕ) (finalLat finalLon : ℚ) (now : ℕ)
    (failingSaves : List ℕ) : Except Err (DB × List Msg) :=
  match findRide db rideId with
  | none => .error (.notFound ("Ride " ++ toString rideId ++ " not found"))
  | some ride =>
    if ride.status ≠ RideStatus.ACTIVE then
      .error (.badRequest
        ("Ride " ++ toString rideId ++ " is not in ACTIVE status"))
    else
      match loadPuller db ride with
      | none =>
        .error (.badRequest
          ("Ride " ++ toString rideId ++ " has no assigned puller"))
      | some puller =>
        let distanceFromDestination := dist finalLat finalLon
          ride.destinationBlock.latitude ride.destinationBlock.longitude
        let calculatedPoints := completionPoints distanceFromDestination
        let ride' := { ride with
          status := RideStatus.COMPLETED
          completionTime := some now
          pointsAwarded := some calculatedPoints }
        if 0 ∈ failingSaves then .error .saveFailure
        else
          let db1 := saveRide db ride'
          if 1 ∈ failingSaves then .error .saveFailure
          else
            let db2 := savePuller db1
              { puller with pointsBalance := puller.pointsBalance + calculatedPoints }
            if 2 ∈ failingSaves then .error .saveFailure
            else
              let db3 := addHistory db2
                { pullerId := puller.id
                  rideId := some ride.id
                  pointsChange := calculatedPoints
                  reason := PointReason.RIDE_COMPLETION }
              .ok (db3,
                [Msg.broadcastRideStatusUpdate ride.id,
                 Msg.rideStatus ride.id RideStatus.COMPLETED,
                 Msg.rideCompletion ride.id puller.id calculatedPoints])

/-- adjustRidePoints(rideId, pointsAdjustment, reason) from
`rides.service.ts` (admin action).  Same transaction shape as
completeRide: guards first (`NotFound`, no puller — there is no status
guard), then save 0 updates the ride's pointsAwarded by the delta
(`ride.pointsAwarded || 0` maps a null column to 0), save 1 adds the
delta to the puller's balance and save 2 appends a MANUAL_ADJUSTMENT
ledger row. -/
def adjustRidePoints (db : DB) (rideId : ℕ) (pointsAdjustment : ℤ)
    (failingSaves : List ℕ) : Except Err (DB × List Msg) :=
  match findRide db rideId with
  | none => .error (.notFound ("Ride " ++ toString rideId ++ " not found"))
  | some ride =>
    match loadPuller db ride with
    | none =>
      .error (.badRequest
        ("Ride " ++ toString rideId ++ " has no assigned puller"))
    | some puller =>
      let oldPoints := ride.pointsAwarded.getD 0
      let ride' := { ride with pointsAwarded := some (oldPoints + pointsAdjustment) }
      if 0 ∈ failingSaves then .error .saveFailure
      else
        let db1 := saveRide db ride'
        if 1 ∈ failingSaves then .error .saveFailure
        else
          let db2 := savePuller db1
            { puller with pointsBalance := puller.pointsBalance + pointsAdjustment }
          if 2 ∈ failingSaves then .error .saveFailure
          else
            let db3 := addHistory db2
              { pullerId := puller.id
                rideId := some ride.id
                pointsChange := pointsAdjustment
                reason := PointReason.MANUAL_ADJUSTMENT }
            .ok (db3, [])

/-- One invocation of a lifecycle operation, with its arguments. -/
inductive EngineOp where
  | accept (rideId pullerId now : ℕ)
  | reject (rideId pullerId : ℕ)
  | pickup (rideId now : ℕ)
  | complete (rideId : ℕ) (finalLat finalLon : ℚ) (now : ℕ)
      (failingSaves : List ℕ)
  | expire (rideId : ℕ)
  | adjust (rideId : ℕ) (pointsAdjustment : ℤ) (failingSaves : List ℕ)

/-- Effect of one operation on the store: a thrown error leaves the
store as it was (the caller keeps the previous state). -/
def applyOp (dist : ℚ → ℚ → ℚ → ℚ → ℚ) (db : DB) : EngineOp → DB
  | .accept rideId pullerId now =>
    match acceptRide db rideId pullerId now with
    | .ok (db', _) => db'
    | .error _ => db
  | .reject rideId pullerId =>
    match rejectRide db rideId pullerId with
    | .ok (db', _, _) => db'
    | .error _ => db
  | .pickup rideId now =>
    match pickupRide db rideId now with
    | .ok (db', _) => db'
    | .error _ => db
  | .complete rideId finalLat finalLon now failingSaves =>
    match completeRide dist db rideId finalLat finalLon now failingSaves with
    | .ok (db', _) => db'
    | .error _ => db
  | .expire rideId => (autoExpireRide db rideId).1
  | .adjust rideId pointsAdjustment failingSaves =>
    match adjustRidePoints db rideId pointsAdjustment failingSaves with
    | .ok (db', _) => db'
    | .error _ => db

/-- Effect of a sequence of operations, applied left to right. -/
def applyOps (dist : ℚ → ℚ → ℚ → ℚ → ℚ) (db : DB) : List EngineOp → DB
  | [] => db
  | op :: ops => applyOps dist (applyOp dist db op) ops

/-- Points credited to a puller by the PointsHistory ledger. -/
def pointsFromHistory (db : DB) (pullerId : ℕ) : ℤ :=
  ((db.history.filter (fun h => h.pullerId = pullerId)).map
    (fun h => h.pointsChange)).sum

/-- Ledger invariant: every puller's balance equals the sum of its
history rows. -/
def BalanceInvariant (db : DB) : Prop :=
  ∀ p ∈ db.pullers, p.pointsBalance = pointsFromHistory db p.id

instance (db : DB) : Decidable (BalanceInvariant db) :=
  inferInstanceAs
    (Decidable (∀ p ∈ db.pullers, p.pointsBalance = pointsFromHistory db p.id))

/-!
Race model for `acceptRide`.  The source reads the ride, checks the
SEARCHING guard in memory, and later saves the mutated object in a
separate repository call — there is no conditional update, so between
the read and the write another accept can run.  A call is split at that
boundary: program counter 0 performs the read and all guards and keeps
the snapshot, program counter 1 saves the object built from the
snapshot and returns success.
-/

deriving instance DecidableEq for Except

/-- One in-flight acceptRide invocation. -/
structure AcceptCall where
  pullerId : ℕ
  now : ℕ
  pc : ℕ
  snapshot : Option Ride
  result : Option (Except Err Unit)
deriving DecidableEq, Repr

/-- A fresh acceptRide invocation. -/
def AcceptCall.start (pullerId now : ℕ) : AcceptCall :=
  { pullerId := pullerId
    now := now
    pc := 0
    snapshot := none
    result := none }

/-- Run the next atomic step of one acceptRide call against the store. -/
def acceptStep (db : DB) (rideId : ℕ) (c : AcceptCall) : DB × AcceptCall :=
  match c.pc with
  | 0 =>
    (match findRide db rideId with
    | none =>
      (db, { c with
        pc := 2
        result := some (.error (.notFound
          ("Ride " ++ toString rideId ++ " not found"))) })
    | some ride =>
      if ride.status ≠ RideStatus.SEARCHING then
        (db, { c with
          pc := 2
          result := some (.error (.badRequest
            ("Ride " ++ toString rideId ++ " is not in SEARCHING status"))) })
      else
        match findPuller db c.pullerId with
        | none =>
          (db, { c with
            pc := 2
            result := some (.error (.notFound
              ("Puller " ++ toString c.pullerId ++ " not found"))) })
        | some _ =>
          (db, { c with
            pc := 1
            snapshot := some ride }))
  | 1 =>
    (match c.snapshot with
    | none =>
      (db, { c with
        pc := 2
        result := some (.error .saveFailure) })
    | some ride =>
      let ride' := { ride with
        pullerId := some c.pullerId
        status := RideStatus.ACCEPTED
        acceptTime := some c.now }
      (saveRide db ride',
        { c with
          pc := 2
          result := some (.ok ()) }))
  | _ => (db, c)

/-- Interleaved execution of two acceptRide calls on the same ride:
each schedule entry says which call performs its next atomic step. -/
def runAccepts (db : DB) (rideId : ℕ) (a b : AcceptCall) :
    List Bool → DB × AcceptCall × AcceptCall
  | [] => (db, a, b)
  | first :: rest =>
    if first then
      let (db', a') := acceptStep db rideId a
      runAccepts db' rideId a' b rest
    else
      let (db', b') := acceptStep db rideId b
      runAccepts db' rideId a b' rest

/-!
Basic facts about the embedded repository operations.
-/

/-!
Characterizations of the service operations: exactly when they succeed
and what the post-state is.
-/

/-- The messages acceptRide publishes on success. -/
def acceptMsgs (rideId pullerId : ℕ) : List Msg :=
  [Msg.rideFilled rideId pullerId,
   Msg.wsRideFilled rideId,
   Msg.broadcastRideStatusUpdate rideId,
   Msg.rideStatus rideId RideStatus.ACCEPTED]

/-- The row acceptRide saves. -/
def acceptedRide (r : Ride) (pid now : ℕ) : Ride :=
  { r with
    pullerId := some pid
    status := RideStatus.ACCEPTED
    acceptTime := some now }

/-- The messages pickupRide publishes on success. -/
def pickupMsgs (rideId : ℕ) : List Msg :=
  [Msg.broadcastRideStatusUpdate rideId,
   Msg.rideStatus rideId RideStatus.ACTIVE]

/-- The row pickupRide saves. -/
def activeRide (r : Ride) (now : ℕ) : Ride :=
  { r with
    status := RideStatus.ACTIVE
    pickupTime := some now }

/-- The row completeRide saves for the ride. -/
def completedRide (r : Ride) (now : ℕ) (pts : ℤ) : Ride :=
  { r with
    status := RideStatus.COMPLETED
    completionTime := some now
    pointsAwarded := some pts }

/-- The ledger row completeRide appends. -/
def completionRow (p : Puller) (r : Ride) (pts : ℤ) : PointsHistoryRow :=
  { pullerId := p.id
    rideId := some r.id
    pointsChange := pts
    reason := PointReason.RIDE_COMPLETION }

/-- The three buffered writes of the settlement transaction, committed
together. -/
def settlementState (db : DB) (r : Ride) (p : Puller) (now : ℕ)
    (pts : ℤ) : DB :=
  addHistory
    (savePuller (saveRide db (completedRide r now pts))
      { p with pointsBalance := p.pointsBalance + pts })
    (completionRow p r pts)

/-- The messages completeRide publishes after commit. -/
def completeMsgs (rideId pullerId : ℕ) (pts : ℤ) : List Msg :=
  [Msg.broadcastRideStatusUpdate rideId,
   Msg.rideStatus rideId RideStatus.COMPLETED,
   Msg.rideCompletion rideId pullerId pts]

/-- The row rejectRide saves when the rejection is new. -/
def rejectedRide (r : Ride) (pid : ℕ) : Ride :=
  { r with rejectedByPullers := some (rejectedOf r ++ [pid]) }

/-- The messages rejectRide publishes for a newly recorded rejection. -/
def rejectMsgs (rideId pullerId : ℕ) : List Msg :=
  [Msg.broadcastRideStatusUpdate rideId,
   Msg.rideRejectionConfirmation pullerId rideId]

/-- The ride row adjustRidePoints saves. -/
def adjustedRide (r : Ride) (delta : ℤ) : Ride :=
  { r with pointsAwarded := some (r.pointsAwarded.getD 0 + delta) }

/-- The ledger row adjustRidePoints appends. -/
def adjustmentRow (p : Puller) (r : Ride) (delta : ℤ) : PointsHistoryRow :=
  { pullerId := p.id
    rideId := some r.id
    pointsChange := delta
    reason := PointReason.MANUAL_ADJUSTMENT }

/-- The three buffered writes of the manual-adjustment transaction. -/
def adjustmentState (db : DB) (r : Ride) (p : Puller) (delta : ℤ) : DB :=
  addHistory
    (savePuller (saveRide db (adjustedRide r delta))
      { p with pointsBalance := p.pointsBalance + delta })
    (adjustmentRow p r delta)

/-!
Concrete fixtures used by the closed evaluations below.
-/

/-- A pickup block. -/
def gateBlock : LocationBlock :=
  { blockId := "B1", destinationName := "Gate", latitude := 5, longitude := 6 }

/-- A destination block. -/
def libBlock : LocationBlock :=
  { blockId := "B2", destinationName := "Library", latitude := 7, longitude := 8 }

/-- A freshly created SEARCHING ride from the hardware path. -/
def baseRide : Ride :=
  { id := 1
    status := RideStatus.SEARCHING
    requestTime := 0
    acceptTime := none
    pickupTime := none
    completionTime := none
    pointsAwarded := none
    rejectedByPullers := none
    startBlock := gateBlock
    destinationBlock := libBlock
    pullerId := none }

/-- An online, active, located puller. -/
def alice : Puller :=
  { id := 1, name := "Alice", pointsBalance := 0, isOnline := true,
    isActive := true, lastKnownLat := some 3, lastKnownLon := some 3 }

/-- A second such puller, the nearest one under `demoDist`. -/
def bob : Puller :=
  { id := 2, name := "Bob", pointsBalance := 0, isOnline := true,
    isActive := true, lastKnownLat := some 1, lastKnownLon := some 1 }

/-- A third such puller. -/
def carol : Puller :=
  { id := 3, name := "Carol", pointsBalance := 0, isOnline := true,
    isActive := true, lastKnownLat := some 2, lastKnownLon := some 2 }

/-- A sample distance oracle standing in for the floating-point
haversine in concrete runs: the distance of a puller is its latitude,
so Bob (latitude 1) is nearest, then Carol, then Alice. -/
def demoDist (lat _lon _destLat _destLon : ℚ) : ℚ := lat

/-- Store with one SEARCHING ride and two pullers racing to accept. -/
def dbRace : DB := { rides := [baseRide], pullers := [alice, bob], history := [] }

/-- Store with one SEARCHING ride and three eligible pullers. -/
def dbReject : DB :=
  { rides := [baseRide], pullers := [alice, bob, carol], history := [] }

/-- The ride after Alice (id 1) rejected it. -/
def rideAfterReject : Ride := rejectedRide baseRide 1

/-- The store after Alice's rejection was recorded. -/
def dbAfterReject : DB := saveRide dbReject rideAfterReject

/-- Does this message offer the ride to a puller? -/
def isOffer : Msg → Bool
  | .rideRequest _ _ => true
  | .wsRideRequest _ _ => true
  | _ => false

/-- A SEARCHING ride that Alice (id 1) has already rejected. -/
def rideRejectedByAlice : Ride := { baseRide with rejectedByPullers := some [1] }

/-- Store for the reject-then-accept scenario. -/
def dbRejThenAcc : DB :=
  { rides := [rideRejectedByAlice], pullers := [alice], history := [] }

/-- An ACCEPTED ride assigned to Alice, no points awarded yet. -/
def rideAcceptedByAlice : Ride :=
  { baseRide with status := RideStatus.ACCEPTED, pullerId := some 1 }

/-- Store for the manual-adjustment scenario. -/
def dbAdjust : DB :=
  { rides := [rideAcceptedByAlice], pullers := [alice], history := [] }

/-- An ACTIVE ride assigned to Alice. -/
def rideActiveAlice : Ride :=
  { baseRide with status := RideStatus.ACTIVE, pullerId := some 1 }

/-- Store for the completion scenario. -/
def dbComplete : DB :=
  { rides := [rideActiveAlice], pullers := [alice], history := [] }

/-- The haversine distance from a point to itself is zero: with both
deltas zero, a = 0 and c = 2·atan2(0, 1) = 0. -/
theorem calculateHaversineDistance_self (lat lon : ℝ) :
    calculateHaversineDistance lat lon lat lon = 0 := by
  unfold calculateHaversineDistance atan2
  simp only [sub_self, zero_mul, zero_div, Real.sin_zero, mul_zero, zero_add,
    add_zero, Real.sqrt_zero, sub_zero, Real.sqrt_one]
  have h1 : ({ re := 1, im := 0 } : ℂ) = 1 := rfl
  rw [h1, Complex.arg_one]
  ring

/-- A found ride carries the id it was looked up by. -/
theorem findRide_id {db : DB} {i : ℕ} {r : Ride}
    (h : findRide db i = some r) : r.id = i := by
  have := List.find?_some h
  exact of_decide_eq_true this

/-- A found ride is a row of the store. -/
theorem findRide_mem {db : DB} {i : ℕ} {r : Ride}
    (h : findRide db i = some r) : r ∈ db.rides :=
  List.mem_of_find?_eq_some h

/-- A found puller carries the id it was looked up by. -/
theorem findPuller_id {db : DB} {i : ℕ} {p : Puller}
    (h : findPuller db i = some p) : p.id = i := by
  have := List.find?_some h
  exact of_decide_eq_true this

/-- A found puller is a row of the store. -/
theorem findPuller_mem {db : DB} {i : ℕ} {p : Puller}
    (h : findPuller db i = some p) : p ∈ db.pullers :=
  List.mem_of_find?_eq_some h

/-- Looking a ride up after a save: the found row is the saved one when
the ids coincide, the old row otherwise. -/
theorem findRide_saveRide (db : DB) (s : Ride) (i : ℕ) :
    findRide (saveRide db s) i =
      (findRide db i).map (fun x => if x.id = s.id then s else x) := by
  unfold findRide saveRide
  induction db.rides with
  | nil => rfl
  | cons head tail ih =>
    simp only [List.map_cons]
    have hid : (if head.id = s.id then s else head).id = head.id := by
      split
      · next h => exact h.symm
      · rfl
    by_cases h2 : head.id = i
    · have hpos1 : ((if head.id = s.id then s else head).id = i) := by rw [hid]; exact h2
      have hpos2 : (head.id = i) := h2
      rw [List.find?_cons_of_pos _ (by simpa using hpos1),
        List.find?_cons_of_pos _ (by simpa using hpos2)]
      simp
    · have hneg1 : ¬((if head.id = s.id then s else head).id = i) := by rw [hid]; exact h2
      rw [List.find?_cons_of_neg _ (by simpa using hneg1),
        List.find?_cons_of_neg _ (by simpa using h2)]
      exact ih

/-- Two successful lookups returning rows with the same id return the
same row. -/
theorem findRide_inj {db : DB} {i j : ℕ} {r s : Ride}
    (h1 : findRide db i = some r) (h2 : findRide db j = some s)
    (hid : r.id = s.id) : r = s := by
  have hi := findRide_id h1
  have hj := findRide_id h2
  have : i = j := by rw [← hi, ← hj, hid]
  subst this
  rw [h1] at h2
  exact Option.some_injective _ h2

/-- Saving a ride leaves the puller table untouched. -/
theorem saveRide_pullers (db : DB) (r : Ride) :
    (saveRide db r).pullers = db.pullers := rfl

/-- Saving a ride leaves the ledger untouched. -/
theorem saveRide_history (db : DB) (r : Ride) :
    (saveRide db r).history = db.history := rfl

/-- Saving a puller leaves the ride table untouched. -/
theorem savePuller_rides (db : DB) (p : Puller) :
    (savePuller db p).rides = db.rides := rfl

/-- Appending a ledger row leaves the ride table untouched. -/
theorem addHistory_rides (db : DB) (h : PointsHistoryRow) :
    (addHistory db h).rides = db.rides := rfl

/-- findRide only looks at the ride table. -/
theorem findRide_congr {db db' : DB} (h : db'.rides = db.rides) (i : ℕ) :
    findRide db' i = findRide db i := by
  unfold findRide
  rw [h]

/-- Saving a row and looking it up by its id yields the saved row,
provided a row with that id existed. -/
theorem findRide_saveRide_self {db : DB} {i : ℕ} {r0 : Ride} (s : Ride)
    (h : findRide db i = some r0) (hid : s.id = i) :
    findRide (saveRide db s) i = some s := by
  rw [findRide_saveRide, h]
  have h0 : r0.id = i := findRide_id h
  simp [h0, hid]

/-- A successful acceptRide came from a SEARCHING ride and an existing
puller, and wrote exactly the accepted row. -/
theorem acceptRide_ok {db : DB} {rideId pullerId now : ℕ} {db' : DB}
    {out : List Msg}
    (hok : acceptRide db rideId pullerId now = .ok (db', out)) :
    ∃ r p, findRide db rideId = some r ∧
      r.status = RideStatus.SEARCHING ∧
      findPuller db pullerId = some p ∧
      db' = saveRide db (acceptedRide r p.id now) ∧
      out = acceptMsgs r.id p.id := by
  unfold acceptRide at hok
  split at hok
  · exact absurd hok (by simp)
  next r h =>
    split at hok
    · exact absurd hok (by simp)
    next hs =>
      split at hok
      · exact absurd hok (by simp)
      next p hp =>
        simp only [Except.ok.injEq, Prod.mk.injEq] at hok
        exact ⟨r, p, h, not_not.mp hs, hp, hok.1.symm, hok.2.symm⟩

/-- acceptRide succeeds whenever the ride is SEARCHING and the puller
exists — regardless of the content of rejectedByPullers. -/
theorem acceptRide_searching_ok {db : DB} {rideId pullerId now : ℕ}
    {r : Ride} {p : Puller}
    (h : findRide db rideId = some r)
    (hs : r.status = RideStatus.SEARCHING)
    (hp : findPuller db pullerId = some p) :
    acceptRide db rideId pullerId now =
      .ok (saveRide db (acceptedRide r p.id now), acceptMsgs r.id p.id) := by
  simp only [acceptRide, h, hp]
  rw [if_neg (not_not_intro hs)]
  rfl

/-- acceptRide on a non-SEARCHING ride throws the invalid-state
BadRequestException. -/
theorem acceptRide_not_searching {db : DB} {rideId pullerId now : ℕ}
    {r : Ride}
    (h : findRide db rideId = some r)
    (hs : r.status ≠ RideStatus.SEARCHING) :
    acceptRide db rideId pullerId now = .error (.badRequest
      ("Ride " ++ toString rideId ++ " is not in SEARCHING status")) := by
  simp only [acceptRide, h]
  rw [if_pos hs]

/-- A successful pickupRide came from an ACCEPTED ride and wrote
exactly the active row. -/
theorem pickupRide_ok {db : DB} {rideId now : ℕ} {db' : DB}
    {out : List Msg}
    (hok : pickupRide db rideId now = .ok (db', out)) :
    ∃ r, findRide db rideId = some r ∧
      r.status = RideStatus.ACCEPTED ∧
      db' = saveRide db (activeRide r now) ∧
      out = pickupMsgs r.id := by
  unfold pickupRide at hok
  split at hok
  · exact absurd hok (by simp)
  next r h =>
    split at hok
    · exact absurd hok (by simp)
    next hs =>
      simp only [Except.ok.injEq, Prod.mk.injEq] at hok
      exact ⟨r, h, not_not.mp hs, hok.1.symm, hok.2.symm⟩

/-- pickupRide on a non-ACCEPTED ride throws the invalid-state
BadRequestException. -/
theorem pickupRide_not_accepted {db : DB} {rideId now : ℕ} {r : Ride}
    (h : findRide db rideId = some r)
    (hs : r.status ≠ RideStatus.ACCEPTED) :
    pickupRide db rideId now = .error (.badRequest
      ("Ride " ++ toString rideId ++ " is not in ACCEPTED status")) := by
  simp only [pickupRide, h]
  rw [if_pos hs]

/-- A successful completeRide came from an ACTIVE ride with an assigned
puller, no save threw, and the post-state is exactly the three
settlement writes. -/
theorem completeRide_ok {dist : ℚ → ℚ → ℚ → ℚ → ℚ} {db : DB}
    {rideId : ℕ} {lat lon : ℚ} {now : ℕ} {fails : List ℕ} {db' : DB}
    {out : List Msg}
    (hok : completeRide dist db rideId lat lon now fails = .ok (db', out)) :
    ∃ r p, findRide db rideId = some r ∧
      r.status = RideStatus.ACTIVE ∧
      loadPuller db r = some p ∧
      0 ∉ fails ∧ 1 ∉ fails ∧ 2 ∉ fails ∧
      db' = settlementState db r p now (completionPoints
        (dist lat lon r.destinationBlock.latitude
          r.destinationBlock.longitude)) ∧
      out = completeMsgs r.id p.id (completionPoints
        (dist lat lon r.destinationBlock.latitude
          r.destinationBlock.longitude)) := by
  unfold completeRide at hok
  split at hok
  · exact absurd hok (by simp)
  next r h =>
    split at hok
    · exact absurd hok (by simp)
    next hs =>
      split at hok
      · exact absurd hok (by simp)
      next p hp =>
        split at hok
        · exact absurd hok (by simp)
        next h0 =>
          split at hok
          · exact absurd hok (by simp)
          next h1 =>
            split at hok
            · exact absurd hok (by simp)
            next h2 =>
              simp only [Except.ok.injEq, Prod.mk.injEq] at hok
              exact ⟨r, p, h, not_not.mp hs, hp, h0, h1, h2,
                hok.1.symm, hok.2.symm⟩

/-- completeRide succeeds on an ACTIVE ride with an assigned puller
when no save throws. -/
theorem completeRide_active_ok {dist : ℚ → ℚ → ℚ → ℚ → ℚ} {db : DB}
    {rideId : ℕ} (lat lon : ℚ) (now : ℕ) {r : Ride} {p : Puller}
    (h : findRide db rideId = some r)
    (hs : r.status = RideStatus.ACTIVE)
    (hp : loadPuller db r = some p) :
    completeRide dist db rideId lat lon now [] =
      .ok (settlementState db r p now (completionPoints
          (dist lat lon r.destinationBlock.latitude
            r.destinationBlock.longitude)),
        completeMsgs r.id p.id (completionPoints
          (dist lat lon r.destinationBlock.latitude
            r.destinationBlock.longitude))) := by
  simp only [completeRide, h, hp]
  rw [if_neg (not_not_intro hs)]
  simp [settlementState, completedRide, completionRow, completeMsgs]

/-- completeRide on a non-ACTIVE ride throws the invalid-state
BadRequestException (before the missing-puller check). -/
theorem completeRide_not_active {dist : ℚ → ℚ → ℚ → ℚ → ℚ} {db : DB}
    {rideId : ℕ} {lat lon : ℚ} {now : ℕ} {fails : List ℕ} {r : Ride}
    (h : findRide db rideId = some r)
    (hs : r.status ≠ RideStatus.ACTIVE) :
    completeRide dist db rideId lat lon now fails = .error (.badRequest
      ("Ride " ++ toString rideId ++ " is not in ACTIVE status")) := by
  simp only [completeRide, h]
  rw [if_pos hs]

/-- rejectRide on a SEARCHING ride by a puller not yet in
rejectedByPullers pushes the id and saves. -/
theorem rejectRide_ok_new {db : DB} {rideId pullerId : ℕ} {r : Ride}
    {p : Puller}
    (h : findRide db rideId = some r)
    (hs : r.status = RideStatus.SEARCHING)
    (hp : findPuller db pullerId = some p)
    (hmem : p.id ∉ rejectedOf r) :
    rejectRide db rideId pullerId =
      .ok (saveRide db (rejectedRide r p.id), rejectMsgs r.id p.id,
        "Ride rejection recorded successfully") := by
  simp only [rejectRide, h, hp]
  rw [if_neg (not_not_intro hs), if_neg hmem]
  rfl

/-- rejectRide by a puller already present in rejectedByPullers is a
success response that changes nothing and publishes nothing. -/
theorem rejectRide_ok_dup {db : DB} {rideId pullerId : ℕ} {r : Ride}
    {p : Puller}
    (h : findRide db rideId = some r)
    (hs : r.status = RideStatus.SEARCHING)
    (hp : findPuller db pullerId = some p)
    (hmem : p.id ∈ rejectedOf r) :
    rejectRide db rideId pullerId =
      .ok (db, [], "Ride already rejected by this puller") := by
  simp only [rejectRide, h, hp]
  rw [if_neg (not_not_intro hs), if_pos hmem]

/-- A successful rejectRide came from a SEARCHING ride and an existing
puller, and either pushed a fresh id or was a recorded no-op. -/
theorem rejectRide_ok {db : DB} {rideId pullerId : ℕ} {db' : DB}
    {out : List Msg} {resp : String}
    (hok : rejectRide db rideId pullerId = .ok (db', out, resp)) :
    ∃ r p, findRide db rideId = some r ∧
      r.status = RideStatus.SEARCHING ∧
      findPuller db pullerId = some p ∧
      ((p.id ∉ rejectedOf r ∧ db' = saveRide db (rejectedRide r p.id)) ∨
        (p.id ∈ rejectedOf r ∧ db' = db)) := by
  unfold rejectRide at hok
  split at hok
  · exact absurd hok (by simp)
  next r h =>
    split at hok
    · exact absurd hok (by simp)
    next hs =>
      split at hok
      · exact absurd hok (by simp)
      next p hp =>
        dsimp only at hok
        split at hok
        next hmem =>
          simp only [Except.ok.injEq, Prod.mk.injEq] at hok
          exact ⟨r, p, h, not_not.mp hs, hp, .inr ⟨hmem, hok.1.symm⟩⟩
        next hmem =>
          simp only [Except.ok.injEq, Prod.mk.injEq] at hok
          exact ⟨r, p, h, not_not.mp hs, hp,
            .inl ⟨hmem, hok.1.symm⟩⟩

/-- autoExpireRide of a missing ride does nothing. -/
theorem autoExpireRide_none {db : DB} {rideId : ℕ}
    (h : findRide db rideId = none) :
    autoExpireRide db rideId = (db, []) := by
  simp only [autoExpireRide, h]

/-- autoExpireRide of a ride that is no longer SEARCHING does nothing:
the store, the ride and every one of its fields are untouched and no
message is published. -/
theorem autoExpireRide_not_searching {db : DB} {rideId : ℕ} {r : Ride}
    (h : findRide db rideId = some r)
    (hs : r.status ≠ RideStatus.SEARCHING) :
    autoExpireRide db rideId = (db, []) := by
  simp only [autoExpireRide, h]
  rw [if_pos hs]

/-- autoExpireRide of a ride still SEARCHING saves the same row with
status EXPIRED and nothing else changed. -/
theorem autoExpireRide_searching {db : DB} {rideId : ℕ} {r : Ride}
    (h : findRide db rideId = some r)
    (hs : r.status = RideStatus.SEARCHING) :
    (autoExpireRide db rideId).1 =
      saveRide db { r with status := RideStatus.EXPIRED } := by
  simp only [autoExpireRide, h]
  rw [if_neg (not_not_intro hs)]

/-- A successful adjustRidePoints came from an existing ride with an
assigned puller — with no condition on the ride's status — and the
post-state is exactly the ride update, balance update and ledger row. -/
theorem adjustRidePoints_ok {db : DB} {rideId : ℕ} {delta : ℤ}
    {fails : List ℕ} {db' : DB} {out : List Msg}
    (hok : adjustRidePoints db rideId delta fails = .ok (db', out)) :
    ∃ r p, findRide db rideId = some r ∧
      loadPuller db r = some p ∧
      0 ∉ fails ∧ 1 ∉ fails ∧ 2 ∉ fails ∧
      db' = adjustmentState db r p delta ∧
      out = [] := by
  unfold adjustRidePoints at hok
  split at hok
  · exact absurd hok (by simp)
  next r h =>
    split at hok
    · exact absurd hok (by simp)
    next p hp =>
      split at hok
      · exact absurd hok (by simp)
      next h0 =>
        split at hok
        · exact absurd hok (by simp)
        next h1 =>
          split at hok
          · exact absurd hok (by simp)
          next h2 =>
            simp only [Except.ok.injEq, Prod.mk.injEq] at hok
            exact ⟨r, p, h, hp, h0, h1, h2, hok.1.symm, hok.2.symm⟩

/-- adjustRidePoints succeeds whenever the ride exists, its puller is
assigned and no save throws — the status is never consulted. -/
theorem adjustRidePoints_some_ok {db : DB} {rideId : ℕ} (delta : ℤ)
    {r : Ride} {p : Puller}
    (h : findRide db rideId = some r)
    (hp : loadPuller db r = some p) :
    adjustRidePoints db rideId delta [] =
      .ok (adjustmentState db r p delta, []) := by
  simp only [adjustRidePoints, h, hp]
  simp [adjustmentState, adjustedRide, adjustmentRow]

/-- C1: the claim reads "if two Accept calls from different pullers race
on a SEARCHING ride, exactly one succeeds ... performed as an atomic
compare-and-set, not a plain read-then-write".  The source is a plain
read-then-write (findOne, in-memory guard, save), so in the interleaving
read(A), read(B), write(A), write(B) both calls return success and B
silently overwrites A (a lost update): run sequentially instead, the
second call gets the invalid-state failure.  This theorem evaluates the
embedded two-phase acceptRide on that interleaving. -/
theorem C1_accept_race_lost_update :
    (runAccepts dbRace 1 (AcceptCall.start 1 10) (AcceptCall.start 2 11)
      [true, false, true, false]).2.1.result = some (.ok ()) ∧
    (runAccepts dbRace 1 (AcceptCall.start 1 10) (AcceptCall.start 2 11)
      [true, false, true, false]).2.2.result = some (.ok ()) ∧
    findRide (runAccepts dbRace 1 (AcceptCall.start 1 10)
      (AcceptCall.start 2 11) [true, false, true, false]).1 1 =
      some (acceptedRide baseRide 2 11) ∧
    (runAccepts dbRace 1 (AcceptCall.start 1 10) (AcceptCall.start 2 11)
      [true, true, false, false]).2.1.result = some (.ok ()) ∧
    (runAccepts dbRace 1 (AcceptCall.start 1 10) (AcceptCall.start 2 11)
      [true, true, false, false]).2.2.result =
      some (.error (.badRequest
        ("Ride " ++ toString (1 : ℕ) ++ " is not in SEARCHING status"))) := by
  decide

/-- C5: the claim reads "the engine ... sends exactly one re-offer to
the single nearest remaining candidate" on each valid Reject.  In the
source the comment announcing the re-offer is followed by no call:
rejectRide records the rejection and publishes only the dashboard update
and the rejection confirmation — no ride request reaches any puller —
while the never-invoked redistributeRideToNextPuller, evaluated on the
post-rejection state, would have sent exactly one offer to Bob, the
nearest candidate not in rejectedByPullers. -/
theorem C5_reject_sends_no_reoffer :
    rejectRide dbReject 1 1 =
      .ok (dbAfterReject, rejectMsgs 1 1,
        "Ride rejection recorded successfully") ∧
    (rejectMsgs 1 1).any isOffer = false ∧
    redistributeRideToNextPuller demoDist dbAfterReject rideAfterReject =
      [Msg.rideRequest 2 1] := by
  decide

/-- Looking a puller up after a save: the found row is the saved one
when the ids coincide, the old row otherwise. -/
theorem findPuller_savePuller (db : DB) (q : Puller) (i : ℕ) :
    findPuller (savePuller db q) i =
      (findPuller db i).map (fun x => if x.id = q.id then q else x) := by
  unfold findPuller savePuller
  induction db.pullers with
  | nil => rfl
  | cons head tail ih =>
    simp only [List.map_cons]
    have hid : (if head.id = q.id then q else head).id = head.id := by
      split
      · next h => exact h.symm
      · rfl
    by_cases h2 : head.id = i
    · have hpos1 : ((if head.id = q.id then q else head).id = i) := by
        rw [hid]; exact h2
      rw [List.find?_cons_of_pos _ (by simpa using hpos1),
        List.find?_cons_of_pos _ (by simpa using h2)]
      simp
    · have hneg1 : ¬((if head.id = q.id then q else head).id = i) := by
        rw [hid]; exact h2
      rw [List.find?_cons_of_neg _ (by simpa using hneg1),
        List.find?_cons_of_neg _ (by simpa using h2)]
      exact ih

/-- Saving a puller row and looking it up by its id yields the saved
row, provided a row with that id existed. -/
theorem findPuller_savePuller_self {db : DB} {i : ℕ} {p0 : Puller}
    (q : Puller) (h : findPuller db i = some p0) (hid : q.id = i) :
    findPuller (savePuller db q) i = some q := by
  rw [findPuller_savePuller, h]
  have h0 : p0.id = i := findPuller_id h
  simp [h0, hid]

/-- A loaded ride relation points at a stored puller row, retrievable
by its own id. -/
theorem loadPuller_findPuller {db : DB} {r : Ride} {p : Puller}
    (hp : loadPuller db r = some p) : findPuller db p.id = some p := by
  unfold loadPuller at hp
  cases hpid : r.pullerId with
  | none => rw [hpid] at hp; exact absurd hp (by simp)
  | some pid =>
    rw [hpid] at hp
    simp only [Option.some_bind] at hp
    have : p.id = pid := findPuller_id hp
    rw [this]
    exact hp

/-- C9 counterexample: Alice has rejected ride 1 (her id is in
rejectedByPullers), the ride is still SEARCHING, and her Accept
nevertheless succeeds and assigns her — refuting "a puller that has
already rejected a ride can never later successfully accept that same
ride". -/
theorem C9_counterexample_reject_then_accept :
    1 ∈ rejectedOf rideRejectedByAlice ∧
    findRide dbRejThenAcc 1 = some rideRejectedByAlice ∧
    acceptRide dbRejThenAcc 1 1 5 =
      .ok (saveRide dbRejThenAcc (acceptedRide rideRejectedByAlice 1 5),
        acceptMsgs 1 1) ∧
    (acceptedRide rideRejectedByAlice 1 5).pullerId = some 1 ∧
    1 ∈ rejectedOf (acceptedRide rideRejectedByAlice 1 5) := by
  decide

/-- C9 amended: acceptRide never consults rejectedByPullers — an Accept
by a puller whose id is already in rejectedByPullers succeeds (and
assigns that puller) whenever the ride is SEARCHING and the puller
exists. -/
theorem C9_accept_ignores_rejections :
    ∀ (db : DB) (rideId pullerId now : ℕ) (r : Ride) (p : Puller),
      findRide db rideId = some r →
      r.status = RideStatus.SEARCHING →
      findPuller db pullerId = some p →
      p.id ∈ rejectedOf r →
      acceptRide db rideId pullerId now =
        .ok (saveRide db (acceptedRide r p.id now), acceptMsgs r.id p.id) :=
  fun _db _rideId _pullerId _now _r _p h hs hp _hmem =>
    acceptRide_searching_ok h hs hp

/-- Witness for C9: the amended theorem applied to the concrete
reject-then-accept store. -/
theorem C9_accept_ignores_rejections_witness :
    (findRide dbRejThenAcc 1 = some rideRejectedByAlice ∧
      rideRejectedByAlice.status = RideStatus.SEARCHING ∧
      findPuller dbRejThenAcc 1 = some alice ∧
      alice.id ∈ rejectedOf rideRejectedByAlice) ∧
    acceptRide dbRejThenAcc 1 1 7 =
      .ok (saveRide dbRejThenAcc (acceptedRide rideRejectedByAlice alice.id 7),
        acceptMsgs rideRejectedByAlice.id alice.id) :=
  ⟨⟨by decide, by decide, by decide, by decide⟩,
    C9_accept_ignores_rejections dbRejThenAcc 1 1 7 rideRejectedByAlice alice
      (by decide) (by decide) (by decide) (by decide)⟩

/-- C10 counterexample: a manual adjustment of +5 on an ACCEPTED ride
succeeds (there is indeed no status guard) but does NOT leave the ride
row unchanged — its pointsAwarded column goes from null to 5, refuting
"leaves the ride row itself (including status and pointsAwarded)
unchanged". -/
theorem C10_counterexample_ride_row_changes :
    adjustRidePoints dbAdjust 1 5 [] =
      .ok (adjustmentState dbAdjust rideAcceptedByAlice alice 5, []) ∧
    findRide (adjustmentState dbAdjust rideAcceptedByAlice alice 5) 1 =
      some (adjustedRide rideAcceptedByAlice 5) ∧
    rideAcceptedByAlice.pointsAwarded = none ∧
    (adjustedRide rideAcceptedByAlice 5).pointsAwarded = some 5 := by
  decide

/-- C10 amended: for every existing ride with an assigned puller and
arbitrary signed delta, adjustRidePoints succeeds with no status guard,
performs settlement steps 4–5 (balance increment by the delta and a
MANUAL_ADJUSTMENT ledger row of that delta), leaves the ride's status
untouched, but additionally rewrites the ride's pointsAwarded to
(pointsAwarded ?? 0) + delta. -/
theorem C10_adjust_reuses_settlement_steps :
    ∀ (db : DB) (rideId : ℕ) (delta : ℤ) (r : Ride) (p : Puller),
      findRide db rideId = some r →
      loadPuller db r = some p →
      adjustRidePoints db rideId delta [] =
        .ok (adjustmentState db r p delta, []) ∧
      (adjustmentState db r p delta).history =
        db.history ++ [adjustmentRow p r delta] ∧
      (adjustmentRow p r delta).reason = PointReason.MANUAL_ADJUSTMENT ∧
      (adjustmentRow p r delta).pointsChange = delta ∧
      findRide (adjustmentState db r p delta) rideId =
        some (adjustedRide r delta) ∧
      (adjustedRide r delta).status = r.status ∧
      (adjustedRide r delta).pointsAwarded =
        some (r.pointsAwarded.getD 0 + delta) ∧
      findPuller (adjustmentState db r p delta) p.id =
        some { p with pointsBalance := p.pointsBalance + delta } := by
  intro db rideId delta r p h hp
  refine ⟨adjustRidePoints_some_ok delta h hp, rfl, rfl, rfl, ?_, rfl, rfl, ?_⟩
  · show findRide (saveRide db (adjustedRide r delta)) rideId =
      some (adjustedRide r delta)
    have hid0 : r.id = rideId := findRide_id h
    exact findRide_saveRide_self _ h
      (show (adjustedRide r delta).id = rideId from hid0)
  · show findPuller (savePuller (saveRide db (adjustedRide r delta))
      { p with pointsBalance := p.pointsBalance + delta }) p.id =
      some { p with pointsBalance := p.pointsBalance + delta }
    have hfp : findPuller (saveRide db (adjustedRide r delta)) p.id = some p :=
      loadPuller_findPuller hp
    exact findPuller_savePuller_self _ hfp rfl

/-- Witness for C10: the amended theorem applied to the concrete
adjustment store. -/
theorem C10_adjust_reuses_settlement_steps_witness :
    (findRide dbAdjust 1 = some rideAcceptedByAlice ∧
      loadPuller dbAdjust rideAcceptedByAlice = some alice) ∧
    (adjustRidePoints dbAdjust 1 (-3) [] =
      .ok (adjustmentState dbAdjust rideAcceptedByAlice alice (-3), []) ∧
    (adjustmentState dbAdjust rideAcceptedByAlice alice (-3)).history =
        dbAdjust.history ++ [adjustmentRow alice rideAcceptedByAlice (-3)] ∧
    (adjustmentRow alice rideAcceptedByAlice (-3)).reason =
        PointReason.MANUAL_ADJUSTMENT ∧
    (adjustmentRow alice rideAcceptedByAlice (-3)).pointsChange = -3 ∧
    findRide (adjustmentState dbAdjust rideAcceptedByAlice alice (-3)) 1 =
        some (adjustedRide rideAcceptedByAlice (-3)) ∧
    (adjustedRide rideAcceptedByAlice (-3)).status =
        rideAcceptedByAlice.status ∧
    (adjustedRide rideAcceptedByAlice (-3)).pointsAwarded =
        some (rideAcceptedByAlice.pointsAwarded.getD 0 + (-3)) ∧
    findPuller (adjustmentState dbAdjust rideAcceptedByAlice alice (-3))
        alice.id =
      some { alice with pointsBalance := alice.pointsBalance + (-3) }) :=
  ⟨⟨by decide, by decide⟩,
    C10_adjust_reuses_settlement_steps dbAdjust 1 (-3) rideAcceptedByAlice
      alice (by decide) (by decide)⟩

/-- C6: when the expiration callback fires, a ride whose status is no
longer SEARCHING is left completely untouched — the store is returned
as-is with no message published — and a ride still SEARCHING is saved
with status EXPIRED and every other field unchanged. -/
theorem C6_expire_idempotent_noop :
    (∀ (db : DB) (rideId : ℕ) (r : Ride),
      findRide db rideId = some r →
      r.status ≠ RideStatus.SEARCHING →
      autoExpireRide db rideId = (db, [])) ∧
    (∀ (db : DB) (rideId : ℕ) (r : Ride),
      findRide db rideId = some r →
      r.status = RideStatus.SEARCHING →
      (autoExpireRide db rideId).1 =
        saveRide db { r with status := RideStatus.EXPIRED } ∧
      findRide (autoExpireRide db rideId).1 rideId =
        some { r with status := RideStatus.EXPIRED }) := by
  constructor
  · intro db rideId r h hs
    exact autoExpireRide_not_searching h hs
  · intro db rideId r h hs
    have h1 := autoExpireRide_searching h hs
    refine ⟨h1, ?_⟩
    rw [h1]
    have hid0 : r.id = rideId := findRide_id h
    exact findRide_saveRide_self _ h
      (show ({ r with status := RideStatus.EXPIRED } : Ride).id = rideId
        from hid0)

/-- Witness for C6: both branches applied to concrete stores — the
ACCEPTED ride is untouched by an expiration firing late, the SEARCHING
ride expires. -/
theorem C6_expire_idempotent_noop_witness :
    ((findRide dbAdjust 1 = some rideAcceptedByAlice ∧
      rideAcceptedByAlice.status ≠ RideStatus.SEARCHING) ∧
      autoExpireRide dbAdjust 1 = (dbAdjust, [])) ∧
    ((findRide dbRace 1 = some baseRide ∧
      baseRide.status = RideStatus.SEARCHING) ∧
      (autoExpireRide dbRace 1).1 =
        saveRide dbRace { baseRide with status := RideStatus.EXPIRED } ∧
      findRide (autoExpireRide dbRace 1).1 1 =
        some { baseRide with status := RideStatus.EXPIRED }) :=
  ⟨⟨⟨by decide, by decide⟩,
      C6_expire_idempotent_noop.1 dbAdjust 1 rideAcceptedByAlice
        (by decide) (by decide)⟩,
    ⟨⟨by decide, by decide⟩,
      C6_expire_idempotent_noop.2 dbRace 1 baseRide
        (by decide) (by decide)⟩⟩

/-- C4: a successful Complete awards exactly
max(0, floor(10 − d/10)) points, d being the distance the service
computes from the final GPS point to the destination block; the formula
yields 10 at d = 0 (and the haversine distance of the final point to an
identical destination point is 0) and 0 at d = 150. -/
theorem C4_completion_points_formula :
    (∀ (dist : ℚ → ℚ → ℚ → ℚ → ℚ) (db : DB) (rideId : ℕ) (lat lon : ℚ)
        (now : ℕ) (r : Ride) (p : Puller),
      findRide db rideId = some r →
      r.status = RideStatus.ACTIVE →
      loadPuller db r = some p →
      ∃ db' out r', completeRide dist db rideId lat lon now [] =
          .ok (db', out) ∧
        findRide db' rideId = some r' ∧
        r'.pointsAwarded = some (completionPoints
          (dist lat lon r.destinationBlock.latitude
            r.destinationBlock.longitude))) ∧
    completionPoints 0 = 10 ∧
    completionPoints 150 = 0 ∧
    (∀ lat lon : ℝ, calculateHaversineDistance lat lon lat lon = 0) := by
  refine ⟨?_, ?_, ?_, calculateHaversineDistance_self⟩
  · intro dist db rideId lat lon now r p h hs hp
    refine ⟨_, _, completedRide r now (completionPoints
        (dist lat lon r.destinationBlock.latitude
          r.destinationBlock.longitude)),
      completeRide_active_ok lat lon now h hs hp, ?_, rfl⟩
    show findRide (saveRide db (completedRide r now _)) rideId = some _
    have hid0 : r.id = rideId := findRide_id h
    exact findRide_saveRide_self _ h
      (show (completedRide r now _).id = rideId from hid0)
  · norm_num [completionPoints]
  · norm_num [completionPoints]

/-- Witness for C4: the formula part applied to a concrete ACTIVE ride
with its assigned puller. -/
theorem C4_completion_points_formula_witness :
    (findRide dbComplete 1 = some rideActiveAlice ∧
      rideActiveAlice.status = RideStatus.ACTIVE ∧
      loadPuller dbComplete rideActiveAlice = some alice) ∧
    (∃ db' out r', completeRide demoDist dbComplete 1 7 8 9 [] =
        .ok (db', out) ∧
      findRide db' 1 = some r' ∧
      r'.pointsAwarded = some (completionPoints
        (demoDist 7 8 rideActiveAlice.destinationBlock.latitude
          rideActiveAlice.destinationBlock.longitude))) :=
  ⟨⟨by decide, by decide, by decide⟩,
    C4_completion_points_formula.1 demoDist dbComplete 1 7 8 9
      rideActiveAlice alice (by decide) (by decide) (by decide)⟩

/-- C2: the settlement of Complete is all-or-nothing over every failure
pattern of its three writes.  Either the call fails — any guard
violation or any save throwing — and the state the caller continues
with is the unchanged pre-state (so a ride that was ACTIVE is still
ACTIVE, with no balance change and no ledger row), or it succeeds and
the post-state is exactly the three writes together: ride row
COMPLETED with completionTime and pointsAwarded, puller balance
incremented by the same points, and one RIDE_COMPLETION ledger row. -/
theorem C2_complete_settlement_atomic :
    ∀ (dist : ℚ → ℚ → ℚ → ℚ → ℚ) (db : DB) (rideId : ℕ) (lat lon : ℚ)
      (now : ℕ) (fails : List ℕ),
      (∃ e, completeRide dist db rideId lat lon now fails = .error e ∧
        applyOp dist db (.complete rideId lat lon now fails) = db) ∨
      (∃ r p db' out,
        completeRide dist db rideId lat lon now fails = .ok (db', out) ∧
        findRide db rideId = some r ∧
        r.status = RideStatus.ACTIVE ∧
        loadPuller db r = some p ∧
        applyOp dist db (.complete rideId lat lon now fails) = db' ∧
        db' = settlementState db r p now (completionPoints
          (dist lat lon r.destinationBlock.latitude
            r.destinationBlock.longitude))) := by
  intro dist db rideId lat lon now fails
  cases hres : completeRide dist db rideId lat lon now fails with
  | error e =>
    refine .inl ⟨e, rfl, ?_⟩
    simp only [applyOp, hres]
  | ok res =>
    obtain ⟨db', out⟩ := res
    obtain ⟨r, p, h, hs, hp, _, _, _, hdb, _⟩ := completeRide_ok hres
    refine .inr ⟨r, p, db', out, rfl, h, hs, hp, ?_, hdb⟩
    simp only [applyOp, hres]

/-- C3: every successful operation follows exactly its edge of the §4.1
graph — Accept: SEARCHING→ACCEPTED, Pickup: ACCEPTED→ACTIVE, Complete:
ACTIVE→COMPLETED, Expire: SEARCHING→EXPIRED — and each of Accept,
Pickup, Complete invoked from any other status fails with the typed
invalid-state BadRequestException, while Expire from any other status
is a no-op. -/
theorem C3_status_graph :
    (∀ (db : DB) (rideId pullerId now : ℕ) (db' : DB) (out : List Msg),
      acceptRide db rideId pullerId now = .ok (db', out) →
      ∃ r r', findRide db rideId = some r ∧
        r.status = RideStatus.SEARCHING ∧
        findRide db' rideId = some r' ∧
        r'.status = RideStatus.ACCEPTED) ∧
    (∀ (db : DB) (rideId pullerId now : ℕ) (r : Ride),
      findRide db rideId = some r →
      r.status ≠ RideStatus.SEARCHING →
      acceptRide db rideId pullerId now = .error (.badRequest
        ("Ride " ++ toString rideId ++ " is not in SEARCHING status"))) ∧
    (∀ (db : DB) (rideId now : ℕ) (db' : DB) (out : List Msg),
      pickupRide db rideId now = .ok (db', out) →
      ∃ r r', findRide db rideId = some r ∧
        r.status = RideStatus.ACCEPTED ∧
        findRide db' rideId = some r' ∧
        r'.status = RideStatus.ACTIVE) ∧
    (∀ (db : DB) (rideId now : ℕ) (r : Ride),
      findRide db rideId = some r →
      r.status ≠ RideStatus.ACCEPTED →
      pickupRide db rideId now = .error (.badRequest
        ("Ride " ++ toString rideId ++ " is not in ACCEPTED status"))) ∧
    (∀ (dist : ℚ → ℚ → ℚ → ℚ → ℚ) (db : DB) (rideId : ℕ) (lat lon : ℚ)
        (now : ℕ) (fails : List ℕ) (db' : DB) (out : List Msg),
      completeRide dist db rideId lat lon now fails = .ok (db', out) →
      ∃ r r', findRide db rideId = some r ∧
        r.status = RideStatus.ACTIVE ∧
        findRide db' rideId = some r' ∧
        r'.status = RideStatus.COMPLETED) ∧
    (∀ (dist : ℚ → ℚ → ℚ → ℚ → ℚ) (db : DB) (rideId : ℕ) (lat lon : ℚ)
        (now : ℕ) (fails : List ℕ) (r : Ride),
      findRide db rideId = some r →
      r.status ≠ RideStatus.ACTIVE →
      completeRide dist db rideId lat lon now fails = .error (.badRequest
        ("Ride " ++ toString rideId ++ " is not in ACTIVE status"))) ∧
    (∀ (db : DB) (rideId : ℕ) (r : Ride),
      findRide db rideId = some r →
      r.status = RideStatus.SEARCHING →
      ∃ r', findRide (autoExpireRide db rideId).1 rideId = some r' ∧
        r'.status = RideStatus.EXPIRED) ∧
    (∀ (db : DB) (rideId : ℕ) (r : Ride),
      findRide db rideId = some r →
      r.status ≠ RideStatus.SEARCHING →
      autoExpireRide db rideId = (db, [])) := by
  refine ⟨?_, ?_, ?_, ?_, ?_, ?_, ?_, ?_⟩
  · intro db rideId pullerId now db' out hok
    obtain ⟨r, p, h, hs, _, hdb, _⟩ := acceptRide_ok hok
    subst hdb
    have hid0 : r.id = rideId := findRide_id h
    exact ⟨r, acceptedRide r p.id now, h, hs,
      findRide_saveRide_self _ h
        (show (acceptedRide r p.id now).id = rideId from hid0), rfl⟩
  · intro db rideId pullerId now r h hs
    exact acceptRide_not_searching h hs
  · intro db rideId now db' out hok
    obtain ⟨r, h, hs, hdb, _⟩ := pickupRide_ok hok
    subst hdb
    have hid0 : r.id = rideId := findRide_id h
    exact ⟨r, activeRide r now, h, hs,
      findRide_saveRide_self _ h
        (show (activeRide r now).id = rideId from hid0), rfl⟩
  · intro db rideId now r h hs
    exact pickupRide_not_accepted h hs
  · intro dist db rideId lat lon now fails db' out hok
    obtain ⟨r, p, h, hs, _, _, _, _, hdb, _⟩ := completeRide_ok hok
    subst hdb
    have hid0 : r.id = rideId := findRide_id h
    refine ⟨r, completedRide r now (completionPoints
        (dist lat lon r.destinationBlock.latitude
          r.destinationBlock.longitude)), h, hs, ?_, rfl⟩
    show findRide (saveRide db (completedRide r now _)) rideId = some _
    exact findRide_saveRide_self _ h
      (show (completedRide r now _).id = rideId from hid0)
  · intro dist db rideId lat lon now fails r h hs
    exact completeRide_not_active h hs
  · intro db rideId r h hs
    have h1 := autoExpireRide_searching h hs
    rw [h1]
    have hid0 : r.id = rideId := findRide_id h
    exact ⟨{ r with status := RideStatus.EXPIRED },
      findRide_saveRide_self _ h
        (show ({ r with status := RideStatus.EXPIRED } : Ride).id = rideId
          from hid0), rfl⟩
  · intro db rideId r h hs
    exact autoExpireRide_not_searching h hs

/-- Witness for C3: the invalid-state branch of Accept on a concrete
ACTIVE ride, and the success branch of Pickup on a concrete ACCEPTED
ride. -/
theorem C3_status_graph_witness :
    ((findRide dbComplete 1 = some rideActiveAlice ∧
      rideActiveAlice.status ≠ RideStatus.SEARCHING) ∧
      acceptRide dbComplete 1 1 3 = .error (.badRequest
        ("Ride " ++ toString (1 : ℕ) ++ " is not in SEARCHING status"))) ∧
    ((pickupRide dbAdjust 1 4 =
        .ok (saveRide dbAdjust (activeRide rideAcceptedByAlice 4),
          pickupMsgs 1)) ∧
      ∃ r r', findRide dbAdjust 1 = some r ∧
        r.status = RideStatus.ACCEPTED ∧
        findRide (saveRide dbAdjust (activeRide rideAcceptedByAlice 4)) 1 =
          some r' ∧
        r'.status = RideStatus.ACTIVE) :=
  ⟨⟨⟨by decide, by decide⟩,
      C3_status_graph.2.1 dbComplete 1 1 3 rideActiveAlice
        (by decide) (by decide)⟩,
    ⟨by decide,
      C3_status_graph.2.2.1 dbAdjust 1 4
        (saveRide dbAdjust (activeRide rideAcceptedByAlice 4))
        (pickupMsgs 1) (by decide)⟩⟩

/-- pointsFromHistory only looks at the ledger. -/
theorem pointsFromHistory_congr {db db' : DB}
    (h : db'.history = db.history) (j : ℕ) :
    pointsFromHistory db' j = pointsFromHistory db j := by
  unfold pointsFromHistory
  rw [h]

/-- BalanceInvariant only looks at the puller table and the ledger. -/
theorem balanceInvariant_congr {db db' : DB}
    (hp : db'.pullers = db.pullers) (hh : db'.history = db.history)
    (hinv : BalanceInvariant db) : BalanceInvariant db' := by
  intro q hq
  rw [hp] at hq
  rw [pointsFromHistory_congr hh]
  exact hinv q hq

/-- Appending a ledger row adds its pointsChange to exactly the sums of
its puller. -/
theorem pointsFromHistory_addHistory (db : DB) (row : PointsHistoryRow)
    (j : ℕ) :
    pointsFromHistory (addHistory db row) j =
      pointsFromHistory db j +
        (if row.pullerId = j then row.pointsChange else 0) := by
  unfold pointsFromHistory addHistory
  simp only [List.filter_append, List.map_append, List.sum_append]
  by_cases hc : row.pullerId = j
  · simp [hc]
  · simp [hc]

/-- Crediting d to a stored puller while appending a d-valued ledger
row for it (and saving any ride row) preserves the ledger invariant. -/
theorem balanceInvariant_credit {db : DB} (s : Ride) {p : Puller}
    (d : ℤ) {row : PointsHistoryRow}
    (hmem : p ∈ db.pullers)
    (hrowid : row.pullerId = p.id) (hrowpts : row.pointsChange = d)
    (hinv : BalanceInvariant db) :
    BalanceInvariant (addHistory (savePuller (saveRide db s)
      { p with pointsBalance := p.pointsBalance + d }) row) := by
  intro q' hq'
  have hq'' : q' ∈ db.pullers.map (fun x =>
      if x.id = p.id then { p with pointsBalance := p.pointsBalance + d }
      else x) := hq'
  obtain ⟨q, hq, hfq⟩ := List.mem_map.mp hq''
  subst hfq
  have hsum : pointsFromHistory (addHistory (savePuller (saveRide db s)
      { p with pointsBalance := p.pointsBalance + d }) row) =
      fun j => pointsFromHistory db j +
        (if row.pullerId = j then row.pointsChange else 0) := by
    funext j
    rw [pointsFromHistory_addHistory]
    have hcg : pointsFromHistory (savePuller (saveRide db s)
        { p with pointsBalance := p.pointsBalance + d }) j =
        pointsFromHistory db j :=
      pointsFromHistory_congr rfl j
    rw [hcg]
  rw [hsum]
  by_cases hc : q.id = p.id
  · rw [if_pos hc]
    show p.pointsBalance + d =
      pointsFromHistory db p.id + (if row.pullerId = p.id then row.pointsChange else 0)
    rw [if_pos hrowid, hrowpts, hinv p hmem]
  · rw [if_neg hc]
    show q.pointsBalance =
      pointsFromHistory db q.id + (if row.pullerId = q.id then row.pointsChange else 0)
    rw [hrowid, if_neg (fun hpq => hc (by rw [hpq])), add_zero]
    exact hinv q hq

/-- Every single engine operation preserves the ledger invariant: the
operations that do not settle points touch neither the puller table nor
the ledger, and the two settling transactions change a balance only
together with the equal-valued ledger row. -/
theorem balanceInvariant_applyOp (dist : ℚ → ℚ → ℚ → ℚ → ℚ) (db : DB)
    (op : EngineOp) (hinv : BalanceInvariant db) :
    BalanceInvariant (applyOp dist db op) := by
  cases op with
  | accept rideId pullerId now =>
    cases hres : acceptRide db rideId pullerId now with
    | error e => simpa only [applyOp, hres] using hinv
    | ok res =>
      obtain ⟨db', out⟩ := res
      obtain ⟨r, p, _, _, _, hdb, _⟩ := acceptRide_ok hres
      subst hdb
      simp only [applyOp, hres]
      exact balanceInvariant_congr rfl rfl hinv
  | reject rideId pullerId =>
    cases hres : rejectRide db rideId pullerId with
    | error e => simpa only [applyOp, hres] using hinv
    | ok res =>
      obtain ⟨db', out, resp⟩ := res
      obtain ⟨r, p, _, _, _, hcase⟩ := rejectRide_ok hres
      simp only [applyOp, hres]
      cases hcase with
      | inl hnew =>
        rw [hnew.2]
        exact balanceInvariant_congr rfl rfl hinv
      | inr hdup =>
        rw [hdup.2]
        exact hinv
  | pickup rideId now =>
    cases hres : pickupRide db rideId now with
    | error e => simpa only [applyOp, hres] using hinv
    | ok res =>
      obtain ⟨db', out⟩ := res
      obtain ⟨r, _, _, hdb, _⟩ := pickupRide_ok hres
      subst hdb
      simp only [applyOp, hres]
      exact balanceInvariant_congr rfl rfl hinv
  | expire rideId =>
    show BalanceInvariant (autoExpireRide db rideId).1
    cases hfind : findRide db rideId with
    | none => rw [autoExpireRide_none hfind]; exact hinv
    | some r =>
      by_cases hst : r.status = RideStatus.SEARCHING
      · rw [autoExpireRide_searching hfind hst]
        exact balanceInvariant_congr rfl rfl hinv
      · rw [autoExpireRide_not_searching hfind hst]
        exact hinv
  | complete rideId lat lon now fails =>
    cases hres : completeRide dist db rideId lat lon now fails with
    | error e => simpa only [applyOp, hres] using hinv
    | ok res =>
      obtain ⟨db', out⟩ := res
      obtain ⟨r, p, _, _, hp, _, _, _, hdb, _⟩ := completeRide_ok hres
      subst hdb
      simp only [applyOp, hres]
      show BalanceInvariant (settlementState db r p now _)
      have hmem : p ∈ db.pullers :=
        findPuller_mem (loadPuller_findPuller hp)
      exact balanceInvariant_credit _ _ hmem rfl rfl hinv
  | adjust rideId delta fails =>
    cases hres : adjustRidePoints db rideId delta fails with
    | error e => simpa only [applyOp, hres] using hinv
    | ok res =>
      obtain ⟨db', out⟩ := res
      obtain ⟨r, p, _, hp, _, _, _, hdb, _⟩ := adjustRidePoints_ok hres
      subst hdb
      simp only [applyOp, hres]
      show BalanceInvariant (adjustmentState db r p delta)
      have hmem : p ∈ db.pullers :=
        findPuller_mem (loadPuller_findPuller hp)
      exact balanceInvariant_credit _ _ hmem rfl rfl hinv

/-- C8: over any sequence of engine operations — completions, manual
adjustments and all the rest — every puller's pointsBalance stays equal
to the sum of pointsChange over that puller's PointsHistory rows: a
balance is never changed without the equal-valued ledger row arriving
in the same atomic step. -/
theorem C8_balance_equals_ledger_sum :
    ∀ (dist : ℚ → ℚ → ℚ → ℚ → ℚ) (ops : List EngineOp) (db : DB),
      BalanceInvariant db → BalanceInvariant (applyOps dist db ops) := by
  intro dist ops
  induction ops with
  | nil => intro db hinv; exact hinv
  | cons op rest ih =>
    intro db hinv
    exact ih _ (balanceInvariant_applyOp dist db op hinv)

/-- Witness for C8: the invariant holds on a concrete store and is
carried across a completion followed by two manual adjustments. -/
theorem C8_balance_equals_ledger_sum_witness :
    BalanceInvariant dbComplete ∧
    BalanceInvariant (applyOps demoDist dbComplete
      [.complete 1 7 8 9 [], .adjust 1 (-2) [], .adjust 1 4 []]) :=
  ⟨by decide,
    C8_balance_equals_ledger_sum demoDist
      [.complete 1 7 8 9 [], .adjust 1 (-2) [], .adjust 1 4 []]
      dbComplete (by decide)⟩

/-- Saving a ride row that carries the same rejectedByPullers as the
row it replaces leaves every ride's rejected list unchanged. -/
theorem rejectedOf_after_save {db : DB} {i j : ℕ} {r r' base : Ride}
    (s : Ride)
    (hbase : findRide db j = some base)
    (hsid : s.id = base.id)
    (hrej : rejectedOf s = rejectedOf base)
    (h : findRide db i = some r)
    (h' : findRide (saveRide db s) i = some r') :
    rejectedOf r' = rejectedOf r := by
  rw [findRide_saveRide, h] at h'
  simp only [Option.map_some'] at h'
  have heq := Option.some_injective _ h'
  by_cases hc : r.id = s.id
  · have hrb : r = base := findRide_inj h hbase (by rw [hc, hsid])
    have hr' : r' = s := by rw [← heq, if_pos hc]
    rw [hr', hrej, hrb]
  · have hr' : r' = r := by rw [← heq, if_neg hc]
    rw [hr']

/-- C7: across every engine operation, a ride's rejectedByPullers list
only ever grows (the old list is a prefix of the new one) and stays
free of duplicates; and a Reject from a puller already present is a
pure no-op that still returns the success response and leaves the
store untouched. -/
theorem C7_rejected_monotone_nodup :
    (∀ (dist : ℚ → ℚ → ℚ → ℚ → ℚ) (db : DB) (op : EngineOp)
        (rideId : ℕ) (r r' : Ride),
      findRide db rideId = some r →
      findRide (applyOp dist db op) rideId = some r' →
      (∃ t, rejectedOf r' = rejectedOf r ++ t) ∧
      ((rejectedOf r).Nodup → (rejectedOf r').Nodup)) ∧
    (∀ (db : DB) (rideId pullerId : ℕ) (r : Ride) (p : Puller),
      findRide db rideId = some r →
      r.status = RideStatus.SEARCHING →
      findPuller db pullerId = some p →
      p.id ∈ rejectedOf r →
      rejectRide db rideId pullerId =
        .ok (db, [], "Ride already rejected by this puller")) := by
  constructor
  · intro dist db op rideId r r' h h'
    have unchanged : rejectedOf r' = rejectedOf r →
        (∃ t, rejectedOf r' = rejectedOf r ++ t) ∧
        ((rejectedOf r).Nodup → (rejectedOf r').Nodup) :=
      fun heq => ⟨⟨[], by rw [heq, List.append_nil]⟩, fun hnd => heq ▸ hnd⟩
    have same : r' = r →
        (∃ t, rejectedOf r' = rejectedOf r ++ t) ∧
        ((rejectedOf r).Nodup → (rejectedOf r').Nodup) :=
      fun heq => unchanged (by rw [heq])
    cases op with
    | accept rideId0 pullerId0 now0 =>
      cases hres : acceptRide db rideId0 pullerId0 now0 with
      | error e =>
        rw [show applyOp dist db (.accept rideId0 pullerId0 now0) = db by
          simp only [applyOp, hres]] at h'
        exact same (Option.some_injective _ (h'.symm.trans h).symm).symm
      | ok res =>
        obtain ⟨db', out⟩ := res
        obtain ⟨base, p, hbase, _, _, hdb, _⟩ := acceptRide_ok hres
        rw [show applyOp dist db (.accept rideId0 pullerId0 now0) = db' by
          simp only [applyOp, hres]] at h'
        subst hdb
        exact unchanged
          (rejectedOf_after_save (acceptedRide base p.id now0) hbase rfl rfl h h')
    | reject rideId0 pullerId0 =>
      cases hres : rejectRide db rideId0 pullerId0 with
      | error e =>
        rw [show applyOp dist db (.reject rideId0 pullerId0) = db by
          simp only [applyOp, hres]] at h'
        exact same (Option.some_injective _ (h'.symm.trans h).symm).symm
      | ok res =>
        obtain ⟨db', out, resp⟩ := res
        obtain ⟨base, p, hbase, _, _, hcase⟩ := rejectRide_ok hres
        rw [show applyOp dist db (.reject rideId0 pullerId0) = db' by
          simp only [applyOp, hres]] at h'
        cases hcase with
        | inr hdup =>
          rw [hdup.2] at h'
          exact same (Option.some_injective _ (h'.symm.trans h).symm).symm
        | inl hnew =>
          obtain ⟨hmem, hdb⟩ := hnew
          subst hdb
          rw [findRide_saveRide, h] at h'
          simp only [Option.map_some'] at h'
          have heq := Option.some_injective _ h'
          by_cases hc : r.id = (rejectedRide base p.id).id
          · have hrb : r = base := findRide_inj h hbase hc
            have hr' : r' = rejectedRide base p.id := by
              rw [← heq, if_pos hc]
            constructor
            · refine ⟨[p.id], ?_⟩
              rw [hr', hrb]
              rfl
            · intro hnd
              rw [hr']
              show (rejectedOf base ++ [p.id]).Nodup
              rw [List.nodup_append]
              refine ⟨hrb ▸ hnd, List.nodup_singleton _, ?_⟩
              intro a ha hb
              rw [List.mem_singleton] at hb
              subst hb
              exact hmem ha
          · have hr' : r' = r := by rw [← heq, if_neg hc]
            exact same hr'
    | pickup rideId0 now0 =>
      cases hres : pickupRide db rideId0 now0 with
      | error e =>
        rw [show applyOp dist db (.pickup rideId0 now0) = db by
          simp only [applyOp, hres]] at h'
        exact same (Option.some_injective _ (h'.symm.trans h).symm).symm
      | ok res =>
        obtain ⟨db', out⟩ := res
        obtain ⟨base, hbase, _, hdb, _⟩ := pickupRide_ok hres
        rw [show applyOp dist db (.pickup rideId0 now0) = db' by
          simp only [applyOp, hres]] at h'
        subst hdb
        exact unchanged
          (rejectedOf_after_save (activeRide base now0) hbase rfl rfl h h')
    | complete rideId0 lat lon now0 fails =>
      cases hres : completeRide dist db rideId0 lat lon now0 fails with
      | error e =>
        rw [show applyOp dist db (.complete rideId0 lat lon now0 fails) = db by
          simp only [applyOp, hres]] at h'
        exact same (Option.some_injective _ (h'.symm.trans h).symm).symm
      | ok res =>
        obtain ⟨db', out⟩ := res
        obtain ⟨base, p, hbase, _, _, _, _, _, hdb, _⟩ := completeRide_ok hres
        rw [show applyOp dist db (.complete rideId0 lat lon now0 fails) = db' by
          simp only [applyOp, hres]] at h'
        subst hdb
        have h'' : findRide (saveRide db (completedRide base now0
            (completionPoints (dist lat lon base.destinationBlock.latitude
              base.destinationBlock.longitude)))) rideId = some r' := h'
        exact unchanged
          (rejectedOf_after_save (completedRide base now0
            (completionPoints (dist lat lon base.destinationBlock.latitude
              base.destinationBlock.longitude))) hbase rfl rfl h h'')
    | expire rideId0 =>
      cases hfind : findRide db rideId0 with
      | none =>
        rw [show applyOp dist db (.expire rideId0) = db by
          show (autoExpireRide db rideId0).1 = db
          rw [autoExpireRide_none hfind]] at h'
        exact same (Option.some_injective _ (h'.symm.trans h).symm).symm
      | some base =>
        by_cases hst : base.status = RideStatus.SEARCHING
        · rw [show applyOp dist db (.expire rideId0) =
              saveRide db { base with status := RideStatus.EXPIRED } from
            autoExpireRide_searching hfind hst] at h'
          exact unchanged
            (rejectedOf_after_save { base with status := RideStatus.EXPIRED }
              hfind rfl rfl h h')
        · rw [show applyOp dist db (.expire rideId0) = db by
            show (autoExpireRide db rideId0).1 = db
            rw [autoExpireRide_not_searching hfind hst]] at h'
          exact same (Option.some_injective _ (h'.symm.trans h).symm).symm
    | adjust rideId0 delta fails =>
      cases hres : adjustRidePoints db rideId0 delta fails with
      | error e =>
        rw [show applyOp dist db (.adjust rideId0 delta fails) = db by
          simp only [applyOp, hres]] at h'
        exact same (Option.some_injective _ (h'.symm.trans h).symm).symm
      | ok res =>
        obtain ⟨db', out⟩ := res
        obtain ⟨base, p, hbase, _, _, _, _, hdb, _⟩ := adjustRidePoints_ok hres
        rw [show applyOp dist db (.adjust rideId0 delta fails) = db' by
          simp only [applyOp, hres]] at h'
        subst hdb
        have h'' : findRide (saveRide db (adjustedRide base delta)) rideId =
            some r' := h'
        exact unchanged
          (rejectedOf_after_save (adjustedRide base delta) hbase rfl rfl h h'')
  · intro db rideId pullerId r p h hs hp hmem
    exact rejectRide_ok_dup h hs hp hmem

/-- Witness for C7: growth and duplicate-freedom applied to a concrete
Reject, and the duplicate Reject no-op on the post-rejection store. -/
theorem C7_rejected_monotone_nodup_witness :
    ((findRide dbReject 1 = some baseRide ∧
      findRide (applyOp demoDist dbReject (.reject 1 1)) 1 =
        some rideAfterReject) ∧
      (∃ t, rejectedOf rideAfterReject = rejectedOf baseRide ++ t) ∧
      ((rejectedOf baseRide).Nodup → (rejectedOf rideAfterReject).Nodup)) ∧
    ((findRide dbAfterReject 1 = some rideAfterReject ∧
      rideAfterReject.status = RideStatus.SEARCHING ∧
      findPuller dbAfterReject 1 = some alice ∧
      alice.id ∈ rejectedOf rideAfterReject) ∧
      rejectRide dbAfterReject 1 1 =
        .ok (dbAfterReject, [], "Ride already rejected by this puller")) :=
  ⟨⟨⟨by decide, by decide⟩,
      C7_rejected_monotone_nodup.1 demoDist dbReject (.reject 1 1) 1
        baseRide rideAfterReject (by decide) (by decide)⟩,
    ⟨⟨by decide, by decide, by decide, by decide⟩,
      C7_rejected_monotone_nodup.2 dbAfterReject 1 1 rideAfterReject alice
        (by decide) (by decide) (by decide) (by decide)⟩⟩
